import Mathlib

/-!
Verification of `data.py` from the `gridsearch_alternative` repository.

The module under verification loads a fixed MRI dataset: a reference image,
k-space sampling locations, k-space measurements, a binary ROI mask and an
acquisition-info record.  Below, the pure numeric helpers are embedded
directly; file contents, the external scipy `fft2`, the external pisap
`convert_mask_to_locations` and the `numpy.random.randn` draws are
parameters of the embedded loader, since they are not code of this module.
Exact arithmetic (`ℚ` for evaluable claims, `ℝ`/`ℂ` for the analytic ones)
stands in for floating point.
-/

namespace GridsearchData

/-- numpy's `arr.max()` over a flattened nonempty list.  The `[]` case returns
`0`; numpy raises there and no claim touches it. -/
def listMax {α : Type} [LinearOrder α] [Zero α] : List α → α
  | [] => 0
  | [x] => x
  | x :: y :: t => max x (listMax (y :: t))

/-- numpy's `arr.min()` over a flattened nonempty list (`0` on `[]`, unused). -/
def listMin {α : Type} [LinearOrder α] [Zero α] : List α → α
  | [] => 0
  | [x] => x
  | x :: y :: t => min x (listMin (y :: t))

theorem le_listMax {α : Type} [LinearOrder α] [Zero α] :
    ∀ (l : List α) (x : α), x ∈ l → x ≤ listMax l
  | [], x, hx => absurd hx (List.not_mem_nil x)
  | [_], x, hx => by
      rcases List.mem_singleton.1 hx with rfl
      simp [listMax]
  | y :: z :: t, x, hx => by
      rcases List.mem_cons.1 hx with rfl | h
      · simp [listMax]
      · exact le_trans (le_listMax (z :: t) x h) (by simp [listMax])

theorem listMin_le {α : Type} [LinearOrder α] [Zero α] :
    ∀ (l : List α) (x : α), x ∈ l → listMin l ≤ x
  | [], x, hx => absurd hx (List.not_mem_nil x)
  | [_], x, hx => by
      rcases List.mem_singleton.1 hx with rfl
      simp [listMin]
  | y :: z :: t, x, hx => by
      rcases List.mem_cons.1 hx with rfl | h
      · simp [listMin]
      · exact le_trans (by simp [listMin]) (listMin_le (z :: t) x h)

theorem listMax_mem {α : Type} [LinearOrder α] [Zero α] :
    ∀ (l : List α), l ≠ [] → listMax l ∈ l
  | [], h => absurd rfl h
  | [_], _ => by simp [listMax]
  | y :: z :: t, _ => by
      have ih := listMax_mem (z :: t) (by simp)
      rcases le_total y (listMax (z :: t)) with h | h
      · simp only [listMax, max_eq_right h]
        exact List.mem_cons_of_mem _ ih
      · simp only [listMax, max_eq_left h]
        exact List.mem_cons_self _ _

theorem listMin_mem {α : Type} [LinearOrder α] [Zero α] :
    ∀ (l : List α), l ≠ [] → listMin l ∈ l
  | [], h => absurd rfl h
  | [_], _ => by simp [listMin]
  | y :: z :: t, _ => by
      have ih := listMin_mem (z :: t) (by simp)
      rcases le_total y (listMin (z :: t)) with h | h
      · simp only [listMin, min_eq_left h]
        exact List.mem_cons_self _ _
      · simp only [listMin, min_eq_right h]
        exact List.mem_cons_of_mem _ ih

theorem flatten_map_map {α β : Type} (f : α → β) (l : List (List α)) :
    (l.map (fun row => row.map f)).flatten = l.flatten.map f := by
  induction l with
  | nil => simp
  | cons r t ih =>
      simp only [List.map_cons, List.flatten_cons, List.map_append, ih]

/-- `_normalize_localisations` from `src/data.py` (lines 43-52): with
`Kmax = loc.max()` and `Kmin = loc.min()`, if `Kmax < abs(Kmin)` divide by
`2*abs(Kmin)`; otherwise first replace every entry equal to `Kmax` by `-Kmax`,
then divide by `2*abs(Kmax)`.  A 2D numpy array is a list of rows; the
elementwise numpy operations act on every entry. -/
def _normalize_localisations {α : Type} [LinearOrderedField α]
    (loc : List (List α)) : List (List α) :=
  if listMax loc.flatten < |listMin loc.flatten| then
    loc.map (fun row => row.map (fun v => v / (2 * |listMin loc.flatten|)))
  else
    loc.map (fun row => row.map (fun v =>
      (if v = listMax loc.flatten then -(listMax loc.flatten) else v) /
        (2 * |listMax loc.flatten|)))

theorem normloc_bounds {α : Type} [LinearOrderedField α] (loc : List (List α))
    (h0 : ∃ x ∈ loc.flatten, x ≠ 0) :
    ∀ y ∈ (_normalize_localisations loc).flatten, -(1/2) ≤ y ∧ y < 1/2 := by
  obtain ⟨x0, hx0m, hx00⟩ := h0
  have hne : loc.flatten ≠ [] := List.ne_nil_of_mem hx0m
  have hMmem : listMax loc.flatten ∈ loc.flatten := listMax_mem _ hne
  have hmmem : listMin loc.flatten ∈ loc.flatten := listMin_mem _ hne
  intro y hy
  unfold _normalize_localisations at hy
  by_cases hc : listMax loc.flatten < |listMin loc.flatten|
  · rw [if_pos hc, flatten_map_map] at hy
    obtain ⟨x, hxm, rfl⟩ := List.mem_map.1 hy
    have hxle : x ≤ listMax loc.flatten := le_listMax _ _ hxm
    have hxge : listMin loc.flatten ≤ x := listMin_le _ _ hxm
    have hmneg : listMin loc.flatten < 0 := by
      by_contra hge
      push_neg at hge
      have habs : |listMin loc.flatten| = listMin loc.flatten := abs_of_nonneg hge
      have : |listMin loc.flatten| ≤ listMax loc.flatten := by
        rw [habs]; exact le_listMax _ _ hmmem
      exact absurd hc (not_lt.2 this)
    have habs : |listMin loc.flatten| = -(listMin loc.flatten) := abs_of_neg hmneg
    have hpos : (0 : α) < 2 * |listMin loc.flatten| := by rw [habs]; linarith
    have hlow : listMin loc.flatten / (2 * |listMin loc.flatten|) = -(1/2) := by
      rw [habs, div_eq_iff (by linarith : (2 : α) * -(listMin loc.flatten) ≠ 0)]
      ring
    constructor
    · rw [← hlow]
      exact (div_le_div_iff_of_pos_right hpos).2 hxge
    · have h1 : x / (2 * |listMin loc.flatten|) ≤
          listMax loc.flatten / (2 * |listMin loc.flatten|) :=
        (div_le_div_iff_of_pos_right hpos).2 hxle
      have h2 : listMax loc.flatten / (2 * |listMin loc.flatten|) < 1/2 := by
        rw [div_lt_iff₀ hpos]
        nlinarith [hc]
      exact lt_of_le_of_lt h1 h2
  · rw [if_neg hc, flatten_map_map] at hy
    push_neg at hc
    obtain ⟨x, hxm, rfl⟩ := List.mem_map.1 hy
    have hMpos : (0 : α) < listMax loc.flatten := by
      rcases lt_or_le 0 (listMax loc.flatten) with h | h
      · exact h
      · exfalso
        have h2 : (0 : α) ≤ |listMin loc.flatten| := abs_nonneg _
        have hM0 : listMax loc.flatten = 0 := le_antisymm h (le_trans h2 hc)
        have hm0 : listMin loc.flatten = 0 :=
          abs_eq_zero.1 (le_antisymm (hM0 ▸ hc) h2)
        have hle : x0 ≤ (0 : α) := hM0 ▸ le_listMax _ _ hx0m
        have hge : (0 : α) ≤ x0 := hm0 ▸ listMin_le _ _ hx0m
        exact hx00 (le_antisymm hle hge)
    have habsM : |listMax loc.flatten| = listMax loc.flatten := abs_of_pos hMpos
    have hpos2 : (0 : α) < 2 * |listMax loc.flatten| := by rw [habsM]; linarith
    have hmge : -(listMax loc.flatten) ≤ listMin loc.flatten := by
      have := (abs_le.1 hc).1
      linarith
    have hhalf : -(listMax loc.flatten) / (2 * |listMax loc.flatten|) = -(1/2) := by
      rw [habsM, div_eq_iff (by linarith : (2 : α) * listMax loc.flatten ≠ 0)]
      ring
    by_cases hxM : x = listMax loc.flatten
    · rw [if_pos hxM, hhalf]
      norm_num
    · rw [if_neg hxM]
      have hxlt : x < listMax loc.flatten := lt_of_le_of_ne (le_listMax _ _ hxm) hxM
      constructor
      · rw [← hhalf]
        refine (div_le_div_iff_of_pos_right hpos2).2 ?_
        exact le_trans hmge (listMin_le _ _ hxm)
      · have h2 : listMax loc.flatten / (2 * |listMax loc.flatten|) = 1/2 := by
          rw [habsM, div_eq_iff (by linarith : (2 : α) * listMax loc.flatten ≠ 0)]
          ring
        rw [← h2]
        exact (div_lt_div_iff_of_pos_right hpos2).2 hxlt

theorem normloc_attains {α : Type} [LinearOrderedField α] (loc : List (List α))
    (h0 : ∃ x ∈ loc.flatten, x ≠ 0) :
    (-(1/2) : α) ∈ (_normalize_localisations loc).flatten := by
  obtain ⟨x0, hx0m, hx00⟩ := h0
  have hne : loc.flatten ≠ [] := List.ne_nil_of_mem hx0m
  have hMmem : listMax loc.flatten ∈ loc.flatten := listMax_mem _ hne
  have hmmem : listMin loc.flatten ∈ loc.flatten := listMin_mem _ hne
  unfold _normalize_localisations
  by_cases hc : listMax loc.flatten < |listMin loc.flatten|
  · rw [if_pos hc, flatten_map_map]
    have hmneg : listMin loc.flatten < 0 := by
      by_contra hge
      push_neg at hge
      have habs : |listMin loc.flatten| = listMin loc.flatten := abs_of_nonneg hge
      have : |listMin loc.flatten| ≤ listMax loc.flatten := by
        rw [habs]; exact le_listMax _ _ hmmem
      exact absurd hc (not_lt.2 this)
    have habs : |listMin loc.flatten| = -(listMin loc.flatten) := abs_of_neg hmneg
    refine List.mem_map.2 ⟨listMin loc.flatten, hmmem, ?_⟩
    rw [habs, div_eq_iff (by nlinarith : (2 : α) * -(listMin loc.flatten) ≠ 0)]
    ring
  · rw [if_neg hc, flatten_map_map]
    push_neg at hc
    have hMpos : (0 : α) < listMax loc.flatten := by
      rcases lt_or_le 0 (listMax loc.flatten) with h | h
      · exact h
      · exfalso
        have h2 : (0 : α) ≤ |listMin loc.flatten| := abs_nonneg _
        have hM0 : listMax loc.flatten = 0 := le_antisymm h (le_trans h2 hc)
        have hm0 : listMin loc.flatten = 0 :=
          abs_eq_zero.1 (le_antisymm (hM0 ▸ hc) h2)
        have hle : x0 ≤ (0 : α) := hM0 ▸ le_listMax _ _ hx0m
        have hge : (0 : α) ≤ x0 := hm0 ▸ listMin_le _ _ hx0m
        exact hx00 (le_antisymm hle hge)
    have habsM : |listMax loc.flatten| = listMax loc.flatten := abs_of_pos hMpos
    refine List.mem_map.2 ⟨listMax loc.flatten, hMmem, ?_⟩
    rw [if_pos rfl, habsM,
      div_eq_iff (by nlinarith : (2 : α) * listMax loc.flatten ≠ 0)]
    ring

theorem normloc_flatten_ne {α : Type} [LinearOrderedField α] (loc : List (List α))
    (h0 : ∃ x ∈ loc.flatten, x ≠ 0) :
    (_normalize_localisations loc).flatten ≠ [] :=
  List.ne_nil_of_mem (normloc_attains loc h0)

/-- A coordinate array whose entries all lie in `[-1/2, 1/2)` with the value
`-1/2` attained is a fixed point of `_normalize_localisations`. -/
theorem normloc_fixed {α : Type} [LinearOrderedField α] (l : List (List α))
    (hb : ∀ y ∈ l.flatten, -(1/2) ≤ y ∧ y < 1/2)
    (hmem : (-(1/2) : α) ∈ l.flatten) :
    _normalize_localisations l = l := by
  have hne : l.flatten ≠ [] := List.ne_nil_of_mem hmem
  have hmin : listMin l.flatten = -(1/2) :=
    le_antisymm (listMin_le _ _ hmem) ((hb _ (listMin_mem _ hne)).1)
  have hmax1 : listMax l.flatten < 1/2 := (hb _ (listMax_mem _ hne)).2
  have habs : |listMin l.flatten| = 1/2 := by
    rw [hmin, abs_neg, abs_of_pos (by norm_num : (0:α) < 1/2)]
  have hcond : listMax l.flatten < |listMin l.flatten| := by
    rw [habs]; exact hmax1
  unfold _normalize_localisations
  rw [if_pos hcond, habs]
  have h1 : (2 : α) * (1/2) = 1 := by norm_num
  rw [h1]
  simp [div_one]

/-! ## The dataset loader `load_exbaboon_512_retrospection` -/

/-- Real 2D arrays (lists of rows). -/
abbrev RMat := List (List ℝ)

/-- Complex 2D arrays (lists of rows). -/
abbrev CMat := List (List ℂ)

noncomputable section

/-- `np.linalg.norm` of a real array: the Frobenius norm over all entries. -/
def rnorm2 (x : RMat) : ℝ := Real.sqrt ((x.flatten.map (fun v => v ^ 2)).sum)

/-- `_l2_normalize` from `src/data.py` (lines 28-40): `x / np.linalg.norm(x)`. -/
def _l2_normalize (x : RMat) : RMat :=
  x.map (fun row => row.map (fun v => v / rnorm2 x))

/-- `np.linalg.norm` of a complex array: square root of the sum of squared
absolute values. -/
def cnorm2 (x : CMat) : ℝ :=
  Real.sqrt ((x.flatten.map (fun z => Complex.abs z ^ 2)).sum)

/-- `np.max(np.abs(x))` of a complex array. -/
def maxAbsC (x : CMat) : ℝ := listMax (x.flatten.map (fun z => Complex.abs z))

end

/-- `scipy.fftpack.ifftshift` on one axis: element `i` of the result is element
`(i + n/2) % n` of the input, realized as `drop (n/2) ++ take (n/2)`. -/
def ifftshift1 {α : Type} (l : List α) : List α :=
  l.drop (l.length / 2) ++ l.take (l.length / 2)

/-- `scipy.fftpack.ifftshift` on a 2D array: shift the rows, then every row. -/
def pfft_ifftshift {α : Type} (m : List (List α)) : List (List α) :=
  (ifftshift1 m).map ifftshift1

/-- `np.fliplr`: mirror every row (horizontal mirror). -/
def np_fliplr {α : Type} (m : List (List α)) : List (List α) := m.map List.reverse

/-- `np.rot90` (90 degrees counterclockwise): `rot90(A)[i][j] = A[j][n-1-i]`,
realized as transposing the horizontally mirrored array. -/
def np_rot90 {α : Type} (m : List (List α)) : List (List α) := (np_fliplr m).transpose

noncomputable section

/-- Elementwise `mask * k` with a real mask and complex k-space values. -/
def cmul (mask : RMat) (k : CMat) : CMat :=
  List.zipWith (fun mrow krow =>
    List.zipWith (fun (a : ℝ) (z : ℂ) => (a : ℂ) * z) mrow krow) mask k

/-- Elementwise complex addition (`kspace + noise`). -/
def cAdd (a b : CMat) : CMat :=
  List.zipWith (fun r s => List.zipWith (fun x y => x + y) r s) a b

/-- `sigma * (randn(*shape) + 1.j*randn(*shape))` (line 149), with the two
standard-normal draws given as parameters `g1`, `g2`. -/
def mkNoise (sigma : ℝ) (g1 g2 : RMat) : CMat :=
  List.zipWith (fun r1 r2 => List.zipWith
    (fun (a b : ℝ) => (sigma : ℂ) * ((a : ℂ) + Complex.I * (b : ℂ))) r1 r2) g1 g2

end

/-- Contents of the bundled data files, as the loader reads them.  `samples`
and `values` are keyed by file name; `roiPng` is the 8-bit pixel array of
`Ref_N512_NEX32_mask.png` (rows of pixels, each pixel a list of channels). -/
structure DataFiles where
  im_ref : RMat
  cartMask : RMat
  samples : String → RMat
  values : String → CMat
  roiPng : List (List (List ℕ))

/-- The `info` dictionary assembled by the loader (lines 152-154, 166-170). -/
structure AcqInfo where
  sigma : ℝ
  snr : ℝ
  psnr : ℝ
  N : ℕ
  FOV : ℕ
  TE : ℕ
  TR : ℕ
  Tobs : ℝ
  Angle : ℕ
  SliceThickness : ℕ
  Contrast : String
  mask_type : String
  acc_factor : Option ℤ

/-- The 5-tuple returned by `load_exbaboon_512_retrospection` (lines 172-173). -/
structure LoadResult where
  ref : CMat
  loc : RMat
  kspace : CMat
  binary_mask : List (List ℕ)
  info : AcqInfo

/-- Python's `str` on the `acc_factor` argument (an int or `None`). -/
def pyStr : Option ℤ → String
  | none => "None"
  | some a => toString a

/-- A single ASCII apostrophe (code 39), as it appears in the error texts. -/
def quoteChar : String := String.singleton (Char.ofNat 39)

/-- The run of 25 spaces that the source's backslash line continuations leave
inside the unknown-mask error text. -/
def contSpaces : String := String.mk (List.replicate 25 (Char.ofNat 32))

/-- Error text of line 93-95 (`acc_factor` given together with
`mask_type='cartesianR4'`). -/
def msg_cart_acc (a : ℤ) : String :=
  "acc_factor should be None if mask_type=" ++ quoteChar ++ "cartesianR4" ++
    quoteChar ++ ", got " ++ toString a

/-- Error text of lines 120-121 / 141-142 (`acc_factor` outside `[8, 15]`). -/
def msg_acc_range (acc : Option ℤ) : String :=
  "acc_factor should be in [8, 15], got " ++ pyStr acc

/-- Error text of lines 145-147 (unknown `mask_type`), including the space
runs produced by the backslash line continuations inside the literal. -/
def msg_bad_mask (mt : String) : String :=
  "type_mask not understood, got " ++ mt ++ " in stead of " ++ contSpaces ++
    quoteChar ++ "cartesianR4" ++ quoteChar ++ ", " ++ quoteChar ++
    "radial-sparkling" ++ quoteChar ++ ", " ++ contSpaces ++ quoteChar ++
    "radial" ++ quoteChar

/-- The dispatch on `mask_type` / `acc_factor` (lines 91-147): either the
invalid-argument error, or the branch's file reads together with the computed
sampling locations and the pre-noise k-space.  `cm2l` is the imported
`pisap.utils.convert_mask_to_locations` and `fft2` is `scipy.fftpack.fft2`,
both external to this module and therefore parameters. -/
noncomputable def branch_loc_kspace (F : DataFiles) (cm2l : RMat → RMat)
    (fft2 : RMat → CMat) (mask_type : String) (acc_factor : Option ℤ) :
    Except String (List String × RMat × CMat) :=
  if mask_type = "cartesianR4" then
    match acc_factor with
    | some a => .error (msg_cart_acc a)
    | none =>
      .ok (["mask_BrainPhantom512_R4.mat"],
           cm2l (pfft_ifftshift F.cartMask),
           cmul (pfft_ifftshift F.cartMask) (fft2 (_l2_normalize F.im_ref)))
  else if mask_type = "radial" then
    if acc_factor = some 8 then
      .ok (["samples_radial_x8_64x3072.mat", "values_radial_x8_64x3072.mat"],
           _normalize_localisations (F.samples "samples_radial_x8_64x3072.mat"),
           F.values "values_radial_x8_64x3072.mat")
    else if acc_factor = some 15 then
      .ok (["samples_radial_x15_34x3072.mat", "values_radial_x15_34x3072.mat"],
           _normalize_localisations (F.samples "samples_radial_x15_34x3072.mat"),
           F.values "values_radial_x15_34x3072.mat")
    else .error (msg_acc_range acc_factor)
  else if mask_type = "radial-sparkling" then
    if acc_factor = some 8 then
      .ok (["samples_sparkling_x8_64x3072.mat", "values_sparkling_x8_64x3072.mat"],
           _normalize_localisations (F.samples "samples_sparkling_x8_64x3072.mat"),
           F.values "values_sparkling_x8_64x3072.mat")
    else if acc_factor = some 15 then
      .ok (["samples_sparkling_x15_34x3072.mat", "values_sparkling_x15_34x3072.mat"],
           _normalize_localisations (F.samples "samples_sparkling_x15_34x3072.mat"),
           F.values "values_sparkling_x15_34x3072.mat")
    else .error (msg_acc_range acc_factor)
  else .error (msg_bad_mask mask_type)

/-- The pixel's first channel, `img[:,:,0]` (line 162). -/
def firstChannel (png : List (List (List ℕ))) : List (List ℕ) :=
  png.map (fun row => row.map (fun px => px.headI))

/-- Lines 160-163 and the return expression of line 172:
`binary_mask = ~imread(...)[:,:,0]` (bitwise complement of 8-bit values,
`v ↦ 255 - v`), then `binary_mask[binary_mask != 0] = 1`, then
`np.rot90(np.fliplr(binary_mask))`. -/
def roi_mask_code (png : List (List (List ℕ))) : List (List ℕ) :=
  np_rot90 (np_fliplr
    (((firstChannel png).map (fun row => row.map (fun v => 255 - v))).map
      (fun row => row.map (fun w => if w ≠ 0 then 1 else w))))

/-- `load_exbaboon_512_retrospection` from `src/data.py` (lines 55-173).  The
first component lists the data files read, in program order: the reference
image is read (and L2-normalized) first, before any argument validation; on an
invalid-argument error no further file is touched; on success the branch's
files and finally the ROI PNG are read. -/
noncomputable def load_exbaboon_512_retrospection (F : DataFiles)
    (cm2l : RMat → RMat) (fft2 : RMat → CMat) (g1 g2 : RMat) (sigma : ℝ)
    (mask_type : String) (acc_factor : Option ℤ) :
    List String × Except String LoadResult :=
  match branch_loc_kspace F cm2l fft2 mask_type acc_factor with
  | .error e => (["Ref_babouin_NEX32.mat"], .error e)
  | .ok (reads, loc, kspacePre) =>
      (["Ref_babouin_NEX32.mat"] ++ reads ++ ["Ref_N512_NEX32_mask.png"],
       .ok {
         ref := (_l2_normalize F.im_ref).map (fun row => row.map (fun (v : ℝ) => (v : ℂ)))
         loc := loc
         kspace := cAdd kspacePre (mkNoise sigma g1 g2)
         binary_mask := roi_mask_code F.roiPng
         info := {
           sigma := sigma
           snr := 20 * Real.log (cnorm2 kspacePre / cnorm2 (mkNoise sigma g1 g2))
           psnr := 20 * Real.log (maxAbsC kspacePre / cnorm2 (mkNoise sigma g1 g2))
           N := 512
           FOV := 200
           TE := 30
           TR := 550
           Tobs := 30.72
           Angle := 25
           SliceThickness := 3
           Contrast := "T2*w"
           mask_type := mask_type
           acc_factor := acc_factor } })

/-- The invalid-argument condition exactly as the spec states it (§4.2). -/
def invalidArgs (mask_type : String) (acc_factor : Option ℤ) : Prop :=
  mask_type ∉ (["cartesianR4", "radial", "radial-sparkling"] : List String) ∨
  (mask_type = "cartesianR4" ∧ acc_factor ≠ none) ∨
  ((mask_type = "radial" ∨ mask_type = "radial-sparkling") ∧
    acc_factor ≠ some 8 ∧ acc_factor ≠ some 15)

instance (mt : String) (acc : Option ℤ) : Decidable (invalidArgs mt acc) := by
  unfold invalidArgs
  infer_instance

/-- The call raised an exception. -/
def raisesError {ε α : Type} (r : Except ε α) : Prop := ∃ e, r = .error e

/-- `needle` occurs verbatim inside `hay`. -/
def containsStr (hay needle : String) : Prop :=
  ∃ s t : List Char, hay.data = s ++ needle.data ++ t

/-- The error text names the offending argument value: the unsupported
`mask_type` string itself, or, for a supported `mask_type`, the string Python
prints for the offending `acc_factor`. -/
def namesOffending (mt : String) (acc : Option ℤ) (e : String) : Prop :=
  (mt ∉ (["cartesianR4", "radial", "radial-sparkling"] : List String) →
    containsStr e mt) ∧
  (mt ∈ (["cartesianR4", "radial", "radial-sparkling"] : List String) →
    containsStr e (pyStr acc))

/-! ## Helper lemmas about the loader -/

theorem containsStr_append_right (a b : String) : containsStr (a ++ b) b :=
  ⟨a.data, [], by simp [String.data_append]⟩

theorem containsStr_extend (h x n : String) (hc : containsStr h n) :
    containsStr (h ++ x) n := by
  obtain ⟨s, t, het⟩ := hc
  exact ⟨s, t ++ x.data, by simp [String.data_append, het]⟩

/-- On every invalid argument combination the dispatch fails with an error
text that names the offending value, before naming any branch file. -/
theorem branch_invalid (F : DataFiles) (cm2l : RMat → RMat) (fft2 : RMat → CMat)
    (mt : String) (acc : Option ℤ) (h : invalidArgs mt acc) :
    ∃ e, branch_loc_kspace F cm2l fft2 mt acc = Except.error e ∧
      namesOffending mt acc e := by
  by_cases h1 : mt = "cartesianR4"
  · subst h1
    rcases acc with _ | a
    · exfalso
      simp [invalidArgs] at h
    · refine ⟨msg_cart_acc a, by simp [branch_loc_kspace], ?_, ?_⟩
      · intro hnot
        exact absurd (by decide) hnot
      · intro _
        simp only [msg_cart_acc, pyStr]
        exact containsStr_append_right _ _
  · by_cases h2 : mt = "radial"
    · subst h2
      have hacc : ¬ acc = some 8 ∧ ¬ acc = some 15 := by
        simp [invalidArgs] at h
        exact h
      refine ⟨msg_acc_range acc, ?_, ?_, ?_⟩
      · simp [branch_loc_kspace, hacc.1, hacc.2]
      · intro hnot
        exact absurd (by decide) hnot
      · intro _
        simp only [msg_acc_range]
        exact containsStr_append_right _ _
    · by_cases h3 : mt = "radial-sparkling"
      · subst h3
        have hacc : ¬ acc = some 8 ∧ ¬ acc = some 15 := by
          simp [invalidArgs] at h
          exact h
        refine ⟨msg_acc_range acc, ?_, ?_, ?_⟩
        · simp [branch_loc_kspace, hacc.1, hacc.2]
        · intro hnot
          exact absurd (by decide) hnot
        · intro _
          simp only [msg_acc_range]
          exact containsStr_append_right _ _
      · refine ⟨msg_bad_mask mt, ?_, ?_, ?_⟩
        · simp [branch_loc_kspace, h1, h2, h3]
        · intro _
          simp only [msg_bad_mask]
          repeat
            first
            | exact containsStr_append_right _ _
            | apply containsStr_extend
        · intro hmem
          exfalso
          simp only [List.mem_cons, List.mem_singleton] at hmem
          rcases hmem with h | h | h
          · exact h1 h
          · exact h2 h
          · rcases h with h | h
            · exact h3 h
            · simp at h

/-- On every valid argument combination the dispatch succeeds. -/
theorem branch_valid (F : DataFiles) (cm2l : RMat → RMat) (fft2 : RMat → CMat)
    (mt : String) (acc : Option ℤ) (h : ¬ invalidArgs mt acc) :
    ∃ out, branch_loc_kspace F cm2l fft2 mt acc = Except.ok out := by
  by_cases h1 : mt = "cartesianR4"
  · subst h1
    rcases acc with _ | a
    · exact ⟨_, rfl⟩
    · exact absurd (Or.inr (Or.inl ⟨rfl, by simp⟩)) h
  · by_cases h2 : mt = "radial"
    · subst h2
      by_cases h8 : acc = some 8
      · subst h8
        exact ⟨_, rfl⟩
      · by_cases h15 : acc = some 15
        · subst h15
          exact ⟨_, rfl⟩
        · exact absurd (Or.inr (Or.inr ⟨Or.inl rfl, h8, h15⟩)) h
    · by_cases h3 : mt = "radial-sparkling"
      · subst h3
        by_cases h8 : acc = some 8
        · subst h8
          exact ⟨_, rfl⟩
        · by_cases h15 : acc = some 15
          · subst h15
            exact ⟨_, rfl⟩
          · exact absurd (Or.inr (Or.inr ⟨Or.inr rfl, h8, h15⟩)) h
      · exact absurd (Or.inl (by simp [h1, h2, h3])) h

/-- An invalid call performs exactly the reference-image read, then raises
with a message naming the offending value. -/
theorem load_invalid (F : DataFiles) (cm2l : RMat → RMat) (fft2 : RMat → CMat)
    (g1 g2 : RMat) (sigma : ℝ) (mt : String) (acc : Option ℤ)
    (h : invalidArgs mt acc) :
    ∃ e, load_exbaboon_512_retrospection F cm2l fft2 g1 g2 sigma mt acc =
      (["Ref_babouin_NEX32.mat"], Except.error e) ∧ namesOffending mt acc e := by
  obtain ⟨e, hb, hn⟩ := branch_invalid F cm2l fft2 mt acc h
  refine ⟨e, ?_, hn⟩
  unfold load_exbaboon_512_retrospection
  rw [hb]

/-- A valid call returns the complete result tuple. -/
theorem load_valid (F : DataFiles) (cm2l : RMat → RMat) (fft2 : RMat → CMat)
    (g1 g2 : RMat) (sigma : ℝ) (mt : String) (acc : Option ℤ)
    (h : ¬ invalidArgs mt acc) :
    ∃ res, (load_exbaboon_512_retrospection F cm2l fft2 g1 g2 sigma mt acc).2 =
      Except.ok res := by
  obtain ⟨⟨reads, loc, kpre⟩, hb⟩ := branch_valid F cm2l fft2 mt acc h
  unfold load_exbaboon_512_retrospection
  rw [hb]
  exact ⟨_, rfl⟩

theorem sum_map_div (l : List ℝ) (f : ℝ → ℝ) (c : ℝ) :
    (l.map (fun v => f v / c)).sum = (l.map f).sum / c := by
  induction l with
  | nil => simp
  | cons x t ih => simp [ih, add_div]

theorem rnorm2_map_div (x : RMat) (c : ℝ) (hc : 0 < c) :
    rnorm2 (x.map (fun row => row.map (fun v => v / c))) = rnorm2 x / c := by
  unfold rnorm2
  rw [flatten_map_map, List.map_map]
  have h1 : ((fun v : ℝ => v ^ 2) ∘ fun v => v / c) = fun v => v ^ 2 / c ^ 2 := by
    funext v
    simp [div_pow]
  rw [h1, sum_map_div, Real.sqrt_div ?hx, Real.sqrt_sq hc.le]
  case hx =>
    apply List.sum_nonneg
    intro a ha
    obtain ⟨v, _, rfl⟩ := List.mem_map.1 ha
    positivity

theorem rnorm2_l2_normalize (x : RMat) (hn : rnorm2 x ≠ 0) :
    rnorm2 (_l2_normalize x) = 1 := by
  have hp : 0 < rnorm2 x := lt_of_le_of_ne (Real.sqrt_nonneg _) (Ne.symm hn)
  unfold _l2_normalize
  rw [rnorm2_map_div x (rnorm2 x) hp, div_self hn]

theorem cnorm2_map_ofReal (X : RMat) :
    cnorm2 (X.map (fun row => row.map (fun (v : ℝ) => (v : ℂ)))) = rnorm2 X := by
  unfold cnorm2 rnorm2
  rw [flatten_map_map, List.map_map]
  have h : ((fun z : ℂ => Complex.abs z ^ 2) ∘ fun v : ℝ => (v : ℂ)) =
      fun v : ℝ => v ^ 2 := by
    funext v
    simp [Complex.abs_ofReal, sq_abs]
  rw [h]

/-- `np.rot90(np.fliplr(B))` is the transpose of `B`. -/
theorem np_rot90_np_fliplr {α : Type} (X : List (List α)) :
    np_rot90 (np_fliplr X) = X.transpose := by
  unfold np_rot90 np_fliplr
  rw [List.map_map]
  have h : (List.reverse ∘ List.reverse) = @id (List α) := by
    funext l
    simp
  rw [h, List.map_id]

/-- Shape agreement for elementwise numpy operations: equal row lengths. -/
def sameShape {α β : Type} (a : List (List α)) (b : List (List β)) : Prop :=
  a.map List.length = b.map List.length

theorem zipRow_zero (r1 r2 : List ℝ) :
    ∀ z ∈ List.zipWith
      (fun (a b : ℝ) => (((0 : ℝ)) : ℂ) * ((a : ℂ) + Complex.I * (b : ℂ))) r1 r2,
      z = 0 := by
  induction r1 generalizing r2 with
  | nil =>
      intro z hz
      simp at hz
  | cons x xs ih =>
      intro z hz
      cases r2 with
      | nil => simp at hz
      | cons y ys =>
          simp only [List.zipWith_cons_cons, List.mem_cons] at hz
          rcases hz with hz | hz
          · subst hz
            simp
          · exact ih ys z hz

theorem mkNoise_sigma_zero (g1 g2 : RMat) :
    ∀ z ∈ (mkNoise 0 g1 g2).flatten, z = 0 := by
  induction g1 generalizing g2 with
  | nil =>
      intro z hz
      simp [mkNoise] at hz
  | cons r1 t1 ih =>
      intro z hz
      cases g2 with
      | nil => simp [mkNoise] at hz
      | cons r2 t2 =>
          simp only [mkNoise, List.zipWith_cons_cons, List.flatten_cons,
            List.mem_append] at hz
          rcases hz with hz | hz
          · exact zipRow_zero r1 r2 z (by simpa using hz)
          · exact ih t2 z (by simpa [mkNoise] using hz)

theorem cAdd_row_zero (k : List ℂ) (r1 r2 : List ℝ)
    (h1 : r1.length = k.length) (h2 : r2.length = k.length) :
    List.zipWith (fun x y => x + y) k
      (List.zipWith
        (fun (a b : ℝ) => (((0 : ℝ)) : ℂ) * ((a : ℂ) + Complex.I * (b : ℂ))) r1 r2) =
      k := by
  induction k generalizing r1 r2 with
  | nil => simp
  | cons x xs ih =>
      cases r1 with
      | nil => simp at h1
      | cons a as =>
          cases r2 with
          | nil => simp at h2
          | cons b bs =>
              simp only [List.zipWith_cons_cons, List.cons.injEq]
              constructor
              · simp
              · exact ih as bs (by simpa using h1) (by simpa using h2)

theorem cAdd_mkNoise_zero (k : CMat) (g1 g2 : RMat)
    (h1 : sameShape g1 k) (h2 : sameShape g2 k) :
    cAdd k (mkNoise 0 g1 g2) = k := by
  induction k generalizing g1 g2 with
  | nil => simp [cAdd]
  | cons kr kt ih =>
      cases g1 with
      | nil => exact absurd h1 (by simp [sameShape])
      | cons r1 t1 =>
          cases g2 with
          | nil => exact absurd h2 (by simp [sameShape])
          | cons r2 t2 =>
              have hh1 : r1.length = kr.length ∧ t1.map List.length = kt.map List.length := by
                simpa [sameShape] using h1
              have hh2 : r2.length = kr.length ∧ t2.map List.length = kt.map List.length := by
                simpa [sameShape] using h2
              simp only [cAdd, mkNoise, List.zipWith_cons_cons, List.cons.injEq]
              constructor
              · exact cAdd_row_zero kr r1 r2 hh1.1 hh2.1
              · exact ih t1 t2 hh1.2 hh2.2

/-- The ROI-mask pipeline as the spec words it (§3 BinaryROIMask and the C1
sources): take the first channel, logically invert it (a nonzero grayscale
value becomes 0, a zero value becomes 1), binarize every nonzero value to 1,
then apply a 180 degree rotation followed by a horizontal mirror.  This
definition follows the spec's words, to be compared with `roi_mask_code`,
which follows the source. -/
def roi_mask_spec (png : List (List (List ℕ))) : List (List ℕ) :=
  np_fliplr (np_rot90 (np_rot90
    (((firstChannel png).map (fun row => row.map (fun v => if v ≠ 0 then 0 else 1))).map
      (fun row => row.map (fun w => if w ≠ 0 then 1 else w)))))

/-- Concrete file contents for the evaluation witnesses: a 1x2 reference
image, a 1x1 Cartesian mask, 1x2 sample files, 1x1 value files and a 2x2
one-channel ROI image. -/
def F0 : DataFiles where
  im_ref := [[3, 4]]
  cartMask := [[1]]
  samples := fun _ => [[1, -2]]
  values := fun _ => [[1]]
  roiPng := [[[0], [255]], [[0], [0]]]

/-- Concrete stand-in for the external `convert_mask_to_locations`. -/
noncomputable def cm2l0 : RMat → RMat := fun _ => []

/-- Concrete stand-in for the external `fft2`. -/
noncomputable def fft20 : RMat → CMat := fun _ => [[1]]

/-! ## The claims -/

/-- C1 (amended): the BinaryROIMask returned by every successful call equals
the first channel of the ROI image, bitwise-complemented per 8-bit value
(`v ↦ 255 - v`), binarized (every nonzero value becomes 1), and then
transposed — which is what `np.rot90(np.fliplr(..))` amounts to — rather
than rotated by 180 degrees and mirrored horizontally as the original claim
states. -/
theorem C1_roi_mask_transpose (F : DataFiles) (cm2l : RMat → RMat)
    (fft2 : RMat → CMat) (g1 g2 : RMat) (sigma : ℝ) (mt : String)
    (acc : Option ℤ) (res : LoadResult)
    (hres : (load_exbaboon_512_retrospection F cm2l fft2 g1 g2 sigma mt acc).2 =
      Except.ok res) :
    res.binary_mask =
      (((firstChannel F.roiPng).map (fun row => row.map (fun v => 255 - v))).map
        (fun row => row.map (fun w => if w ≠ 0 then 1 else w))).transpose := by
  rcases hcase : branch_loc_kspace F cm2l fft2 mt acc with e | ⟨reads, loc, kpre⟩
  · unfold load_exbaboon_512_retrospection at hres
    rw [hcase] at hres
    simp at hres
  · unfold load_exbaboon_512_retrospection at hres
    rw [hcase] at hres
    have h := Except.ok.inj hres
    subst h
    show roi_mask_code F.roiPng = _
    unfold roi_mask_code
    exact np_rot90_np_fliplr _

/-- C1 (counterexample): at a concrete ROI image the binary mask returned by
the code differs from the spec's described pipeline (logical inversion, then
a 180 degree rotation followed by a horizontal mirror). -/
theorem C1_counterexample :
    (load_exbaboon_512_retrospection F0 cm2l0 fft20 [] [] 0 "cartesianR4" none).2.map
        (fun r => r.binary_mask) ≠ Except.ok (roi_mask_spec F0.roiPng) ∧
    (load_exbaboon_512_retrospection F0 cm2l0 fft20 [] [] 0 "cartesianR4" none).2.map
        (fun r => r.binary_mask) = Except.ok [[1, 1], [0, 1]] ∧
    roi_mask_spec F0.roiPng = [[1, 1], [1, 0]] := by
  have h1 : (load_exbaboon_512_retrospection F0 cm2l0 fft20 [] [] 0
      "cartesianR4" none).2.map (fun r => r.binary_mask) =
      Except.ok [[1, 1], [0, 1]] := rfl
  have h2 : roi_mask_spec F0.roiPng = [[1, 1], [1, 0]] := rfl
  refine ⟨?_, h1, h2⟩
  rw [h1, h2]
  intro h
  exact absurd (Except.ok.inj h) (by decide)

theorem C1_witness : ∃ res,
    (load_exbaboon_512_retrospection F0 cm2l0 fft20 [] [] 0 "radial"
      (some 8)).2 = Except.ok res ∧
    res.binary_mask =
      (((firstChannel F0.roiPng).map (fun row => row.map (fun v => 255 - v))).map
        (fun row => row.map (fun w => if w ≠ 0 then 1 else w))).transpose :=
  ⟨_, rfl, C1_roi_mask_transpose F0 cm2l0 fft20 [] [] 0 "radial" (some 8) _ rfl⟩

/-- C2: for a coordinate array whose values are not all zero, every entry of
the output of `_normalize_localisations` lies in the half-open interval
`[-1/2, 1/2)`: at least `-1/2` (the lower bound is attained e.g. at the
witness input) and strictly below `1/2`. -/
theorem C2_normalized_range (loc : List (List ℚ)) (y : ℚ)
    (h0 : ∃ x ∈ loc.flatten, x ≠ 0)
    (hy : y ∈ (_normalize_localisations loc).flatten) :
    -(1/2) ≤ y ∧ y < 1/2 :=
  normloc_bounds loc h0 y hy

theorem C2_witness : -(1/2) ≤ (-(1/2) : ℚ) ∧ (-(1/2) : ℚ) < 1/2 :=
  C2_normalized_range [[(1 : ℚ), -2]] (-(1/2)) (by decide)
    (by norm_num [_normalize_localisations, listMax, listMin])

/-- C3: a call raises the invalid-argument error exactly when `mask_type` is
outside the supported set, or `mask_type` is cartesianR4 with a non-null
`acc_factor`, or `mask_type` is radial / radial-sparkling with `acc_factor`
neither 8 nor 15; and every such error text names the offending value. -/
theorem C3_invalid_argument_iff (F : DataFiles) (cm2l : RMat → RMat)
    (fft2 : RMat → CMat) (g1 g2 : RMat) (sigma : ℝ) (mt : String)
    (acc : Option ℤ) :
    (raisesError
        (load_exbaboon_512_retrospection F cm2l fft2 g1 g2 sigma mt acc).2 ↔
      invalidArgs mt acc) ∧
    (∀ e, (load_exbaboon_512_retrospection F cm2l fft2 g1 g2 sigma mt acc).2 =
        Except.error e → namesOffending mt acc e) := by
  have hforward : ∀ e,
      (load_exbaboon_512_retrospection F cm2l fft2 g1 g2 sigma mt acc).2 =
        Except.error e → invalidArgs mt acc := by
    intro e he
    by_contra hinv
    obtain ⟨res, hres⟩ := load_valid F cm2l fft2 g1 g2 sigma mt acc hinv
    rw [hres] at he
    exact Except.noConfusion he
  constructor
  · constructor
    · rintro ⟨e, he⟩
      exact hforward e he
    · intro hinv
      obtain ⟨e, heq, _⟩ := load_invalid F cm2l fft2 g1 g2 sigma mt acc hinv
      exact ⟨e, by rw [heq]⟩
  · intro e he
    obtain ⟨e2, heq, hn⟩ :=
      load_invalid F cm2l fft2 g1 g2 sigma mt acc (hforward e he)
    rw [heq] at he
    have he2 : e2 = e := Except.error.inj he
    exact he2 ▸ hn

theorem C3_witness :
    raisesError
      (load_exbaboon_512_retrospection F0 cm2l0 fft20 [] [] 0 "unknown" none).2 :=
  (C3_invalid_argument_iff F0 cm2l0 fft20 [] [] 0 "unknown" none).1.mpr (by decide)

/-- C4: in the cartesianR4 branch the dispatch yields the sampling locations
as the mask-to-locations conversion of the inverse-fftshifted mask, and the
pre-noise k-space as the elementwise product of that shifted mask with the 2D
DFT of the L2-normalized reference image; the returned KSpaceData is that
product plus the noise array. -/
theorem C4_cartesian_kspace (F : DataFiles) (cm2l : RMat → RMat)
    (fft2 : RMat → CMat) (g1 g2 : RMat) (sigma : ℝ) :
    branch_loc_kspace F cm2l fft2 "cartesianR4" none =
      Except.ok (["mask_BrainPhantom512_R4.mat"],
        cm2l (pfft_ifftshift F.cartMask),
        cmul (pfft_ifftshift F.cartMask) (fft2 (_l2_normalize F.im_ref))) ∧
    (load_exbaboon_512_retrospection F cm2l fft2 g1 g2 sigma
        "cartesianR4" none).2.map (fun r => (r.loc, r.kspace)) =
      Except.ok (cm2l (pfft_ifftshift F.cartMask),
        cAdd (cmul (pfft_ifftshift F.cartMask) (fft2 (_l2_normalize F.im_ref)))
          (mkNoise sigma g1 g2)) :=
  ⟨rfl, rfl⟩

/-- C5: for every successful call, the info record's snr is 20 times the
natural logarithm of the ratio of the norm of the pre-noise k-space to the
norm of the noise array, and psnr is 20 times the natural logarithm of the
ratio of the maximum absolute pre-noise k-space value to the norm of the
noise array (`Real.log` is the natural logarithm). -/
theorem C5_snr_psnr_natural_log (F : DataFiles) (cm2l : RMat → RMat)
    (fft2 : RMat → CMat) (g1 g2 : RMat) (sigma : ℝ) (mt : String)
    (acc : Option ℤ) (reads : List String) (loc : RMat) (kpre : CMat)
    (res : LoadResult)
    (hb : branch_loc_kspace F cm2l fft2 mt acc = Except.ok (reads, loc, kpre))
    (hres : (load_exbaboon_512_retrospection F cm2l fft2 g1 g2 sigma mt acc).2 =
      Except.ok res) :
    res.info.snr =
      20 * Real.log (cnorm2 kpre / cnorm2 (mkNoise sigma g1 g2)) ∧
    res.info.psnr =
      20 * Real.log (maxAbsC kpre / cnorm2 (mkNoise sigma g1 g2)) := by
  unfold load_exbaboon_512_retrospection at hres
  rw [hb] at hres
  have h := Except.ok.inj hres
  subst h
  exact ⟨rfl, rfl⟩

theorem C5_witness : ∃ (reads : List String) (loc : RMat) (kpre : CMat)
    (res : LoadResult),
    branch_loc_kspace F0 cm2l0 fft20 "radial" (some 8) =
      Except.ok (reads, loc, kpre) ∧
    (load_exbaboon_512_retrospection F0 cm2l0 fft20 [[0]] [[0]] 1 "radial"
      (some 8)).2 = Except.ok res ∧
    (res.info.snr =
        20 * Real.log (cnorm2 kpre / cnorm2 (mkNoise 1 [[0]] [[0]])) ∧
     res.info.psnr =
        20 * Real.log (maxAbsC kpre / cnorm2 (mkNoise 1 [[0]] [[0]]))) :=
  ⟨_, _, _, _, rfl, rfl,
    C5_snr_psnr_natural_log F0 cm2l0 fft20 [[0]] [[0]] 1 "radial" (some 8)
      _ _ _ _ rfl rfl⟩

/-- C6: every valid call L2-normalizes the loaded reference image, so the
returned ReferenceImage is the loaded array divided by its L2 norm (cast to
complex) and has Euclidean norm exactly 1, provided the loaded array's norm
is nonzero. -/
theorem C6_reference_unit_norm (F : DataFiles) (cm2l : RMat → RMat)
    (fft2 : RMat → CMat) (g1 g2 : RMat) (sigma : ℝ) (mt : String)
    (acc : Option ℤ) (res : LoadResult)
    (hres : (load_exbaboon_512_retrospection F cm2l fft2 g1 g2 sigma mt acc).2 =
      Except.ok res)
    (hn : rnorm2 F.im_ref ≠ 0) :
    res.ref =
      (_l2_normalize F.im_ref).map (fun row => row.map (fun (v : ℝ) => (v : ℂ))) ∧
    cnorm2 res.ref = 1 := by
  rcases hcase : branch_loc_kspace F cm2l fft2 mt acc with e | ⟨reads, loc, kpre⟩
  · unfold load_exbaboon_512_retrospection at hres
    rw [hcase] at hres
    simp at hres
  · unfold load_exbaboon_512_retrospection at hres
    rw [hcase] at hres
    have h := Except.ok.inj hres
    subst h
    refine ⟨rfl, ?_⟩
    show cnorm2 ((_l2_normalize F.im_ref).map
      (fun row => row.map (fun (v : ℝ) => (v : ℂ)))) = 1
    rw [cnorm2_map_ofReal, rnorm2_l2_normalize _ hn]

theorem C6_witness : ∃ res,
    (load_exbaboon_512_retrospection F0 cm2l0 fft20 [] [] 0 "radial"
      (some 15)).2 = Except.ok res ∧
    (res.ref =
      (_l2_normalize F0.im_ref).map
        (fun row => row.map (fun (v : ℝ) => (v : ℂ))) ∧
     cnorm2 res.ref = 1) :=
  ⟨_, rfl, C6_reference_unit_norm F0 cm2l0 fft20 [] [] 0 "radial" (some 15)
    _ rfl (by
      have h25 : rnorm2 F0.im_ref = Real.sqrt 25 := by
        norm_num [rnorm2, F0]
      rw [h25, Real.sqrt_ne_zero']
      norm_num)⟩

/-- C7: with noiseSigma = 0 the generated noise array is identically zero,
the returned KSpaceData exactly equals the pre-noise k-space, and the info
record maps sigma to 0. -/
theorem C7_zero_sigma (F : DataFiles) (cm2l : RMat → RMat)
    (fft2 : RMat → CMat) (g1 g2 : RMat) (mt : String) (acc : Option ℤ)
    (reads : List String) (loc : RMat) (kpre : CMat) (res : LoadResult)
    (hb : branch_loc_kspace F cm2l fft2 mt acc = Except.ok (reads, loc, kpre))
    (hres : (load_exbaboon_512_retrospection F cm2l fft2 g1 g2 0 mt acc).2 =
      Except.ok res)
    (h1 : sameShape g1 kpre) (h2 : sameShape g2 kpre) :
    (∀ z ∈ (mkNoise 0 g1 g2).flatten, z = 0) ∧
    res.kspace = kpre ∧ res.info.sigma = 0 := by
  unfold load_exbaboon_512_retrospection at hres
  rw [hb] at hres
  have h := Except.ok.inj hres
  subst h
  exact ⟨mkNoise_sigma_zero g1 g2, cAdd_mkNoise_zero kpre g1 g2 h1 h2, rfl⟩

theorem C7_witness : ∃ (reads : List String) (loc : RMat) (kpre : CMat)
    (res : LoadResult),
    branch_loc_kspace F0 cm2l0 fft20 "radial" (some 8) =
      Except.ok (reads, loc, kpre) ∧
    (load_exbaboon_512_retrospection F0 cm2l0 fft20 [[0]] [[0]] 0 "radial"
      (some 8)).2 = Except.ok res ∧
    ((∀ z ∈ (mkNoise 0 [[0]] [[0]]).flatten, z = 0) ∧
     res.kspace = kpre ∧ res.info.sigma = 0) :=
  ⟨_, _, _, _, rfl, rfl,
    C7_zero_sigma F0 cm2l0 fft20 [[0]] [[0]] "radial" (some 8) _ _ _ _
      rfl rfl rfl rfl⟩

/-- C8: `_normalize_localisations` is idempotent on every coordinate array
whose values are not all zero. -/
theorem C8_normalize_idempotent (loc : List (List ℚ))
    (h0 : ∃ x ∈ loc.flatten, x ≠ 0) :
    _normalize_localisations (_normalize_localisations loc) =
      _normalize_localisations loc :=
  normloc_fixed _ (normloc_bounds loc h0) (normloc_attains loc h0)

theorem C8_witness :
    _normalize_localisations (_normalize_localisations [[(1 : ℚ), -2]]) =
      _normalize_localisations [[(1 : ℚ), -2]] :=
  C8_normalize_idempotent [[(1 : ℚ), -2]] (by decide)

/-- C9: an invalid call reads exactly the reference-image file — no file of
the selected branch and no ROI image — and raises; a valid call returns the
complete result tuple.  No partial result is ever produced. -/
theorem C9_error_before_branch_reads (F : DataFiles) (cm2l : RMat → RMat)
    (fft2 : RMat → CMat) (g1 g2 : RMat) (sigma : ℝ) (mt : String)
    (acc : Option ℤ) :
    (invalidArgs mt acc →
      (load_exbaboon_512_retrospection F cm2l fft2 g1 g2 sigma mt acc).1 =
        ["Ref_babouin_NEX32.mat"] ∧
      raisesError
        (load_exbaboon_512_retrospection F cm2l fft2 g1 g2 sigma mt acc).2) ∧
    (¬ invalidArgs mt acc →
      ∃ res, (load_exbaboon_512_retrospection F cm2l fft2 g1 g2 sigma mt acc).2 =
        Except.ok res) := by
  constructor
  · intro h
    obtain ⟨e, heq, _⟩ := load_invalid F cm2l fft2 g1 g2 sigma mt acc h
    rw [heq]
    exact ⟨rfl, e, rfl⟩
  · intro h
    exact load_valid F cm2l fft2 g1 g2 sigma mt acc h

theorem C9_witness :
    (load_exbaboon_512_retrospection F0 cm2l0 fft20 [] [] 0 "cartesianR4"
      (some 4)).1 = ["Ref_babouin_NEX32.mat"] ∧
    raisesError
      (load_exbaboon_512_retrospection F0 cm2l0 fft20 [] [] 0 "cartesianR4"
        (some 4)).2 :=
  (C9_error_before_branch_reads F0 cm2l0 fft20 [] [] 0 "cartesianR4"
    (some 4)).1 (by decide)

/-- C10: even on an invalid argument combination the loader reads (and
L2-normalizes) the reference image first — the read trace starts with the
reference file — and only then raises; validation never precedes that read. -/
theorem C10_ref_read_before_validation (F : DataFiles) (cm2l : RMat → RMat)
    (fft2 : RMat → CMat) (g1 g2 : RMat) (sigma : ℝ) (mt : String)
    (acc : Option ℤ) (h : invalidArgs mt acc) :
    "Ref_babouin_NEX32.mat" ∈
      (load_exbaboon_512_retrospection F cm2l fft2 g1 g2 sigma mt acc).1 ∧
    (load_exbaboon_512_retrospection F cm2l fft2 g1 g2 sigma mt acc).1.head? =
      some "Ref_babouin_NEX32.mat" ∧
    raisesError
      (load_exbaboon_512_retrospection F cm2l fft2 g1 g2 sigma mt acc).2 := by
  obtain ⟨e, heq, _⟩ := load_invalid F cm2l fft2 g1 g2 sigma mt acc h
  rw [heq]
  exact ⟨by simp, rfl, e, rfl⟩

theorem C10_witness :
    "Ref_babouin_NEX32.mat" ∈
      (load_exbaboon_512_retrospection F0 cm2l0 fft20 [] [] 0 "radial"
        (some 3)).1 ∧
    (load_exbaboon_512_retrospection F0 cm2l0 fft20 [] [] 0 "radial"
      (some 3)).1.head? = some "Ref_babouin_NEX32.mat" ∧
    raisesError
      (load_exbaboon_512_retrospection F0 cm2l0 fft20 [] [] 0 "radial"
        (some 3)).2 :=
  C10_ref_read_before_validation F0 cm2l0 fft20 [] [] 0 "radial" (some 3)
    (by decide)

end GridsearchData
